import Mathlib

/-!
Verification of the lead-enrichment bot (`lead_enrichment_bot.py`, with
constants from `config.py`).

Python strings are modelled as lists of characters (`Str`).  External
effects are modelled as explicit oracles passed to the embedded
functions: `requests.get` becomes a function from a URL to an optional
`FetchResult` (`none` models a raised exception), `json.loads` becomes a
function from text to an optional flat string-valued JSON object (`none`
models `JSONDecodeError`), and the BeautifulSoup selector machinery of
the scraper becomes the per-selector text lists it yields.  Pure string
manipulation (`strip`, `lower`, `split`, slicing, `re.sub(r'\s+', ' ')`,
substring tests) is embedded directly.
-/

/-- Python strings, modelled as lists of characters. -/
abbrev Str := List Char

/-- Characters of a Lean string literal, used to write concrete Python strings. -/
def chars (s : String) : Str := s.toList

/-- Python's default whitespace set for `str.strip` / `\s` (ASCII part). -/
def isPySpace (c : Char) : Bool :=
  c = ' ' || c = '\t' || c = '\n' || c = '\r' || c = '\x0b' || c = '\x0c'

/-- Python `str.strip()`: remove leading and trailing whitespace. -/
def pyStrip (s : Str) : Str :=
  ((s.dropWhile isPySpace).reverse.dropWhile isPySpace).reverse

/-- Python `str.lower()` (ASCII case folding). -/
def pyLower (s : Str) : Str := s.map Char.toLower

/-- Python's `in` on strings: `pat` occurs as a contiguous substring of `s`. -/
def isSubstr (pat : Str) (s : Str) : Bool :=
  match s with
  | [] => pat.isEmpty
  | _ :: rest => pat.isPrefixOf s || isSubstr pat rest

/-- Python `str.split(sep)` for a single-character separator
(`"a\nb".split('\n') = ["a","b"]`, `"".split('\n') = [""]`). -/
def splitOnChar (sep : Char) : Str → List Str
  | [] => [[]]
  | c :: rest =>
    if c = sep then [] :: splitOnChar sep rest
    else
      match splitOnChar sep rest with
      | [] => [[c]]
      | t :: ts => (c :: t) :: ts

/-- Python `line.split(sep, 1)[1]`: everything after the first occurrence of
`sep` (callers guard on `sep in line`). -/
def afterFirst (sep : Char) (s : Str) : Str :=
  (s.dropWhile (fun c => c ≠ sep)).drop 1

/-- The three semantic fields extracted by the analyzers.  Every return site
of `analyze_with_groq` / `analyze_with_gemini` builds a dict with exactly the
keys `summary`, `industry`, `automation_pitch`, so an analyzer result is this
record. -/
structure Analysis where
  summary : Str
  industry : Str
  automation_pitch : Str
deriving DecidableEq, Repr

/-- The all-empty analyzer result `{"summary": "", "automation_pitch": "", "industry": ""}`. -/
def emptyAnalysis : Analysis := ⟨[], [], []⟩

/-- The field currently being accumulated by the fallback text parser
(`current_key` in `_parse_text_response`). -/
inductive FieldKey
  | summary
  | industry
  | automation_pitch
deriving DecidableEq, Repr

def getField (a : Analysis) : FieldKey → Str
  | .summary => a.summary
  | .industry => a.industry
  | .automation_pitch => a.automation_pitch

def setField (a : Analysis) (k : FieldKey) (v : Str) : Analysis :=
  match k with
  | .summary => { a with summary := v }
  | .industry => { a with industry := v }
  | .automation_pitch => { a with automation_pitch := v }

/-- Embeds `['summary', 'about', 'description']` (line 353 of the source). -/
def summaryKeywords : List Str := [chars "summary", chars "about", chars "description"]

/-- Embeds `['industry', 'sector', 'business']` (line 357 of the source). -/
def industryKeywords : List Str := [chars "industry", chars "sector", chars "business"]

/-- Embeds `['automation', 'pitch', 'solution']` (line 361 of the source). -/
def automationKeywords : List Str := [chars "automation", chars "pitch", chars "solution"]

/-- Embeds `any(word in line.lower() for word in kws)`. -/
def hasAnyKeyword (kws : List Str) (line : Str) : Bool :=
  kws.any (fun w => isSubstr w (pyLower line))

/-- The value the fallback parser stores when a continuation line is appended
to the active field: `result[current_key] += " " + line` when the field is
already non-empty, else `result[current_key] = line`. -/
def appendPiece (old line : Str) : Str :=
  if old.isEmpty then line else old ++ ' ' :: line

/-- One iteration of the `for line in lines` loop of `_parse_text_response`:
strip the line; skip it when empty; otherwise the first matching keyword
class (summary, then industry, then automation) switches the active field and,
when the line has a colon, overwrites the field with the text after the first
colon; a keyword-free line longer than 10 characters is appended to the active
field, if any. -/
def parse_text_line (st : Analysis × Option FieldKey) (rawLine : Str) :
    Analysis × Option FieldKey :=
  let line := pyStrip rawLine
  if line.isEmpty then st
  else if hasAnyKeyword summaryKeywords line then
    (if line.contains ':' then setField st.1 .summary (pyStrip (afterFirst ':' line)) else st.1,
     some .summary)
  else if hasAnyKeyword industryKeywords line then
    (if line.contains ':' then setField st.1 .industry (pyStrip (afterFirst ':' line)) else st.1,
     some .industry)
  else if hasAnyKeyword automationKeywords line then
    (if line.contains ':' then
       setField st.1 .automation_pitch (pyStrip (afterFirst ':' line))
     else st.1,
     some .automation_pitch)
  else
    match st.2 with
    | some k =>
      if 10 < line.length then (setField st.1 k (appendPiece (getField st.1 k) line), st.2)
      else st
    | none => st

/-- Embeds `_parse_text_response` (lines 337-378): fold the line parser over the
newline-split content starting from all-empty fields and no active key, then
truncate every field to 500 characters (`result[key][:500]`). -/
def parse_text_response (content : Str) : Analysis :=
  let fin := ((splitOnChar '\n' content).foldl parse_text_line (emptyAnalysis, none)).1
  { summary := fin.summary.take 500
    industry := fin.industry.take 500
    automation_pitch := fin.automation_pitch.take 500 }

/-- Worker for `replaceAll`, structurally recursive on a fuel argument so
that it reduces inside the kernel; every step consumes at least one input
character, so fuel `s.length` never runs out (the `0, s => s` row is
unreachable under the fuel discipline of `replaceAll`). -/
def replaceAllAux (pat rep : Str) : Nat → Str → Str
  | _, [] => []
  | 0, s => s
  | Nat.succ fuel, c :: rest =>
    if !pat.isEmpty && pat.isPrefixOf (c :: rest) then
      rep ++ replaceAllAux pat rep fuel ((c :: rest).drop pat.length)
    else
      c :: replaceAllAux pat rep fuel rest

/-- Python `str.replace(pat, rep)`: replace every (non-overlapping,
left-to-right) occurrence of `pat` by `rep`.  Used for the code-fence
cleaning `content.replace('```json', '').replace('```', '')`. -/
def replaceAll (pat rep : Str) (s : Str) : Str :=
  replaceAllAux pat rep s.length s

/-- Embeds `re.search(r'\{.*\}', content, re.DOTALL)`: the greedy brace-delimited
block running from the first `{` to the last `}`, when the last `}` occurs at
or after the first `{`; `none` when no such block exists. -/
def braceBlock (s : Str) : Option Str :=
  let fromBrace := s.dropWhile (fun c => c ≠ '\x7b')
  match (fromBrace.reverse.dropWhile (fun c => c ≠ '\x7d')).reverse with
  | [] => none
  | b => some b

/-- A parsed flat JSON object with string values, as produced by `json.loads`
on the objects the prompts request.  `json.loads` itself is external, so the
analyzers are parameterised by an oracle `Str → Option JsonObj`; `none`
models `json.JSONDecodeError`. -/
abbrev JsonObj := List (Str × Str)

/-- The `json.loads` oracle type. -/
abbrev JsonParser := Str → Option JsonObj

/-- Python `json_data.get(key, "")` on a parsed JSON object. -/
def jsonGet (obj : JsonObj) (k : Str) : Str :=
  match obj.find? (fun p => p.1 == k) with
  | some p => p.2
  | none => []

/-- The structured result built from a successfully parsed JSON object:
`{"summary": json_data.get("summary", "").strip(), ...}`. -/
def structuredResult (obj : JsonObj) : Analysis :=
  { summary := pyStrip (jsonGet obj (chars "summary"))
    industry := pyStrip (jsonGet obj (chars "industry"))
    automation_pitch := pyStrip (jsonGet obj (chars "automation_pitch")) }

/-- The code-fence cleaning of the Groq path (line 255):
`content.replace('```json', '').replace('```', '').strip()`. -/
def groqClean (content : Str) : Str :=
  pyStrip (replaceAll (chars "```") [] (replaceAll (chars "```json") [] content))

/-- The response-parsing section of `analyze_with_groq` (lines 252-277),
applied to the stripped `choices[0].message.content` text.  After cleaning,
a located brace block that parses as JSON yields the structured result; a
located block that fails to parse (`json.JSONDecodeError`) falls back to
`_parse_text_response` on the cleaned text; when no brace block exists the
`if json_match:` body is skipped and control falls through to the final
`return {"summary": "", "automation_pitch": "", "industry": ""}`. -/
def analyze_with_groq_parse (jp : JsonParser) (content : Str) : Analysis :=
  let cleaned := groqClean content
  match braceBlock cleaned with
  | some block =>
    match jp block with
    | some obj => structuredResult obj
    | none => parse_text_response cleaned
  | none => emptyAnalysis

/-- The response-parsing section of `analyze_with_gemini` (lines 316-329),
applied to the stripped `candidates[0].parts[0].text` text: a located brace
block that parses as JSON yields the structured result; otherwise — both when
no block exists and when parsing raises `json.JSONDecodeError` — the function
returns `_parse_text_response(content)`. -/
def analyze_with_gemini_parse (jp : JsonParser) (content : Str) : Analysis :=
  match braceBlock content with
  | some block =>
    match jp block with
    | some obj => structuredResult obj
    | none => parse_text_response content
  | none => parse_text_response content

/-- The observable outcome of `self.session.get(domain, ...)` during domain
probing: HTTP status, `len(response.content)` (byte length of the raw body),
`response.text` (the decoded body), and `response.url` (the URL after the
transparently followed redirects). -/
structure FetchResult where
  status : Nat
  contentLength : Nat
  text : Str
  finalUrl : Str

/-- The `requests.get` oracle: `none` models a raised exception
(timeout, connection error, ...). -/
abbrev Fetch := Str → Option FetchResult

/-- Embeds `['domain for sale', 'parked domain', 'buy this domain', 'domain expired']`
(line 103 of the source). -/
def parkedIndicators : List Str :=
  [chars "domain for sale", chars "parked domain", chars "buy this domain",
   chars "domain expired"]

/-- The acceptance test of `_try_common_domains` (lines 100-105):
`status_code == 200 and len(content) > 1000` and no parked-domain phrase
occurs in the lowercased body text. -/
def acceptable (r : FetchResult) : Bool :=
  r.status == 200 && 1000 < r.contentLength &&
    !(parkedIndicators.any (fun ind => isSubstr ind (pyLower r.text)))

/-- Whether probing URL `u` succeeds: the fetch returns (no exception) and the
response is `acceptable`.  A raised exception and an unacceptable response
both just move the loop to the next candidate. -/
def goodFetch (fetch : Fetch) (u : Str) : Bool :=
  match fetch u with
  | some r => acceptable r
  | none => false

/-- Embeds `re.sub(r'[^a-zA-Z0-9]', '', company_name.lower())` (line 72). -/
def variantAlnum (name : Str) : Str :=
  (pyLower name).filter fun c =>
    ('a' ≤ c && c ≤ 'z') || ('A' ≤ c && c ≤ 'Z') || ('0' ≤ c && c ≤ '9')

/-- Embeds `company_name.lower().replace(' ', '').replace('.', '').replace(',', '')`
(line 73); replacing every occurrence by nothing is filtering those characters
out. -/
def variantNoSep (name : Str) : Str :=
  (pyLower name).filter fun c => !(c = ' ' || c = '.' || c = ',')

/-- Embeds `s.split()[0]` for Python's whitespace `split()`: the first maximal run of
non-whitespace characters; `none` models the `IndexError` raised on a
whitespace-only string. -/
def firstWsToken (s : Str) : Option Str :=
  let t := s.dropWhile isPySpace
  if t.isEmpty then none else some (t.takeWhile fun c => !isPySpace c)

/-- Worker for `dedupFirst`, carrying the set of values already emitted. -/
def dedupFirstAux (seen : List Str) : List Str → List Str
  | [] => []
  | x :: xs =>
    if seen.contains x then dedupFirstAux seen xs
    else x :: dedupFirstAux (x :: seen) xs

/-- Embeds `list(dict.fromkeys(variations))` (line 78): drop duplicates, keeping the
first occurrence of each value, preserving order. -/
def dedupFirst (l : List Str) : List Str := dedupFirstAux [] l

/-- Lines 71-78: the three cleaned name variations, deduplicated preserving
order.  The third variation is `company_name.lower().split()[0]` when the raw
name contains a space (else the whole lowered name); `none` models the
`IndexError` this raises on names whose only characters are whitespace with at
least one space — the exception propagates to the caller. -/
def nameVariants (name : Str) : Option (List Str) :=
  let v1 := variantAlnum name
  let v2 := variantNoSep name
  let v3 := if name.contains ' ' then firstWsToken (pyLower name) else some (pyLower name)
  v3.map fun v => dedupFirst [v1, v2, v]

/-- The ten candidate URLs built from one cleaned name (lines 84-95), in
source order: `www`/bare × `.com`, `.io`, `.co`, `.net`, `.org`. -/
def candidateUrls (v : Str) : List Str :=
  [chars "https://www." ++ v ++ chars ".com",
   chars "https://" ++ v ++ chars ".com",
   chars "https://www." ++ v ++ chars ".io",
   chars "https://" ++ v ++ chars ".io",
   chars "https://www." ++ v ++ chars ".co",
   chars "https://" ++ v ++ chars ".co",
   chars "https://www." ++ v ++ chars ".net",
   chars "https://" ++ v ++ chars ".net",
   chars "https://www." ++ v ++ chars ".org",
   chars "https://" ++ v ++ chars ".org"]

/-- The full candidate sequence probed by the two nested loops: variants
shorter than 2 characters are skipped (line 81), each remaining variant
contributes its ten candidate URLs in order. -/
def allCandidates (vs : List Str) : List Str :=
  (vs.filter fun v => 2 ≤ v.length).flatMap candidateUrls

/-- The probing loop (lines 97-108), instrumented with the list of URLs
actually fetched: the first candidate whose fetch is `goodFetch` is returned
immediately (`return domain`) and probing stops; exceptions and unacceptable
responses move to the next candidate; an exhausted list yields `none`
(`return ""`). -/
def probeList (fetch : Fetch) : List Str → Option Str × List Str
  | [] => (none, [])
  | u :: us =>
    if goodFetch fetch u then (some u, [u])
    else
      let rec' := probeList fetch us
      (rec'.1, u :: rec'.2)

/-- Embeds `_try_common_domains` (lines 68-110), instrumented with the fetch log.
The outer `none` models the `IndexError` of variant construction propagating
to `search_company_website`'s catch-all. -/
def try_common_domains (fetch : Fetch) (name : Str) : Option (Option Str × List Str) :=
  (nameVariants name).map fun vs => probeList fetch (allCandidates vs)

/-- What `scrape_website_content` observes from a fetched page: for each entry
of `CONTENT_SELECTORS`, in order, either the (already `get_text(strip=True)`)
texts of the matching elements after the `REMOVE_ELEMENTS` pass, or `none`
when evaluating that selector raised (the `except: continue` at line 189). -/
abbrev SelectorOutcomes := List (Option (List Str))

/-- A scrape attempt: `none` models a failed fetch (exception or the
`raise_for_status` of a non-2xx response); `some sels` carries the
per-selector outcomes of the parsed document. -/
abbrev Page := Option SelectorOutcomes

/-- Embeds `MIN_CONTENT_LENGTH = 50` (config.py). -/
def MIN_CONTENT_LENGTH : Nat := 50

/-- Embeds `MAX_CONTENT_LENGTH = 4000` (config.py). -/
def MAX_CONTENT_LENGTH : Nat := 4000

/-- The `content_areas` list (lines 179-190): every selector's element texts
whose length exceeds `MIN_CONTENT_LENGTH`; a selector that raised contributes
nothing. -/
def contentAreasOf (sels : SelectorOutcomes) : List Str :=
  sels.flatMap fun sr => (sr.getD []).filter fun t => MIN_CONTENT_LENGTH < t.length

/-- Embeds `re.sub(r'\s+', ' ', full_text)`: collapse every maximal whitespace run
into a single space. -/
def collapseWs : Str → Str
  | [] => []
  | [c] => if isPySpace c then [' '] else [c]
  | c :: d :: rest =>
    if isPySpace c && isPySpace d then collapseWs (d :: rest)
    else (if isPySpace c then ' ' else c) :: collapseWs (d :: rest)

/-- Lines 193-194: `' '.join(content_areas)` then whitespace collapsing and
stripping. -/
def fullTextOf (sels : SelectorOutcomes) : Str :=
  pyStrip (collapseWs (List.intercalate [' '] (contentAreasOf sels)))

/-- Embeds `scrape_website_content` (lines 165-204): empty on fetch failure;
otherwise the cleaned full text truncated to `MAX_CONTENT_LENGTH`
(`full_text[:MAX_CONTENT_LENGTH] if full_text else ""`). -/
def scrape_website_content (page : Page) : Str :=
  match page with
  | none => []
  | some sels =>
    let fullText := fullTextOf sels
    if fullText.isEmpty then [] else fullText.take MAX_CONTENT_LENGTH

/-- Worker for `pyFormat`, structurally recursive on a fuel argument so that
it reduces inside the kernel; every step consumes at least one template
character, so fuel `template.length` never runs out (the `0, _ => none` row
is unreachable under the fuel discipline of `pyFormat`).  It follows Python's
`str.format` scanner: literal characters are copied; `\x7b\x7b` and
`\x7d\x7d` emit one literal brace; `\x7b` opens a replacement field whose
name runs to the first `:` or `\x7d` (a `:` starts a format specification,
skipped up to the next `\x7d`); a field name absent from the keyword
arguments raises `KeyError`, an unterminated field or a lone `\x7d` raises
`ValueError` — every raise is modelled as `none`. -/
def pyFormatAux (kwargs : List (Str × Str)) : Nat → Str → Option Str
  | _, [] => some []
  | 0, _ => none
  | Nat.succ fuel, c :: rest =>
    if c = '\x7b' then
      match rest with
      | [] => none
      | d :: rest2 =>
        if d = '\x7b' then
          match pyFormatAux kwargs fuel rest2 with
          | none => none
          | some t => some ('\x7b' :: t)
        else
          let nameChars := rest.takeWhile fun e => e != ':' && e != '\x7d'
          match rest.dropWhile fun e => e != ':' && e != '\x7d' with
          | [] => none
          | e :: rest3 =>
            let afterField :=
              if e = '\x7d' then some rest3
              else
                match rest3.dropWhile (fun f => f != '\x7d') with
                | [] => none
                | _ :: r => some r
            match afterField with
            | none => none
            | some rest4 =>
              match kwargs.find? (fun p => p.1 == nameChars) with
              | none => none
              | some p =>
                match pyFormatAux kwargs fuel rest4 with
                | none => none
                | some t => some (p.2 ++ t)
    else if c = '\x7d' then
      match rest with
      | [] => none
      | d :: rest2 =>
        if d = '\x7d' then
          match pyFormatAux kwargs fuel rest2 with
          | none => none
          | some t => some ('\x7d' :: t)
        else none
    else
      match pyFormatAux kwargs fuel rest with
      | none => none
      | some t => some (c :: t)

/-- Python `template.format(**kwargs)` for string keyword arguments; `none`
models a raised `KeyError` / `ValueError`. -/
def pyFormat (template : Str) (kwargs : List (Str × Str)) : Option Str :=
  pyFormatAux kwargs template.length template

/-- The template `GROQ_ANALYSIS_PROMPT` of config.py (lines 67-77); its two
placeholder braces are written `\x7b`/`\x7d`.  It contains no other braces. -/
def GROQ_ANALYSIS_PROMPT : Str :=
  chars "You are a business intelligence expert. Analyze the company information below and provide insights.\n\nCompany: \x7bcompany_name\x7d\nWebsite Content: \x7bwebsite_content\x7d\n\nProvide a JSON response with exactly these fields:\n- \"summary\": 2-3 sentences describing what the company does, their main products/services\n- \"industry\": Primary industry sector (e.g., Technology, Healthcare, Finance, Manufacturing)\n- \"automation_pitch\": 2-3 sentences describing a specific AI automation solution for this company\n\nRespond only with valid JSON, no additional text:"

/-- The template `GEMINI_ANALYSIS_PROMPT` of config.py (lines 80-97); all its
braces — the two placeholders and the unescaped literal braces of the JSON
example block — are written `\x7b`/`\x7d`. -/
def GEMINI_ANALYSIS_PROMPT : Str :=
  chars "\nAnalyze the following company information:\n\nCompany Name: \x7bcompany_name\x7d\nWebsite Content: \x7bwebsite_content\x7d\n\nPlease provide:\n1. A brief summary (2-3 sentences) of what this company does\n2. The industry this company operates in (one or two words)\n3. A custom AI automation idea that QF Innovate could pitch to this company (2-3 sentences focusing on their specific business needs)\n\nFormat your response as JSON:\n\x7b\n    \"summary\": \"Brief company summary here\",\n    \"industry\": \"Industry name\",\n    \"automation_pitch\": \"Custom AI automation pitch here\"\n\x7d\n"

/-- Literal segments of `GROQ_ANALYSIS_PROMPT` around its two placeholders,
in placeholder order `company_name`, `website_content`: the formatted Groq
prompt decomposes into these. -/
def groqPromptPre : Str :=
  chars "You are a business intelligence expert. Analyze the company information below and provide insights.\n\nCompany: "

def groqPromptMid : Str := chars "\nWebsite Content: "

def groqPromptPost : Str :=
  chars "\n\nProvide a JSON response with exactly these fields:\n- \"summary\": 2-3 sentences describing what the company does, their main products/services\n- \"industry\": Primary industry sector (e.g., Technology, Healthcare, Finance, Manufacturing)\n- \"automation_pitch\": 2-3 sentences describing a specific AI automation solution for this company\n\nRespond only with valid JSON, no additional text:"

/-- The user prompt construction of `analyze_with_groq` (lines 219-222):
`GROQ_ANALYSIS_PROMPT.format(company_name=company_name, website_content=website_content[:3000])`. -/
def buildGroqPrompt (company_name website_content : Str) : Option Str :=
  pyFormat GROQ_ANALYSIS_PROMPT
    [(chars "company_name", company_name),
     (chars "website_content", website_content.take 3000)]

/-- The prompt construction of `analyze_with_gemini` (lines 293-296):
`GEMINI_ANALYSIS_PROMPT.format(company_name=company_name, website_content=website_content[:2000])`.
The template's literal JSON braces are not escaped, so this `format` call
always raises `KeyError` on the field name beginning `\n    "summary"`. -/
def buildGeminiPrompt (company_name website_content : Str) : Option Str :=
  pyFormat GEMINI_ANALYSIS_PROMPT
    [(chars "company_name", company_name),
     (chars "website_content", website_content.take 2000)]

/-- Embeds `analyze_with_gemini` (lines 283-335) as a whole function.  An
empty API key short-circuits to the all-empty result (lines 285-286).
Otherwise the prompt formatting of lines 293-296 runs first inside the `try`;
the `KeyError` it raises is swallowed by the `except Exception` at line 333,
yielding the all-empty result.  Only on success would the prompt be POSTed —
the `callGemini` oracle stands for lines 298-314 (`none` covers a transport
failure, a non-2xx status and a response without candidates, all of which
yield the all-empty result) — and the stripped response text parsed. -/
def analyze_with_gemini (gemini_api_key : Str) (jp : JsonParser)
    (callGemini : Str → Option Str) (company_name website_content : Str) : Analysis :=
  if gemini_api_key.isEmpty then emptyAnalysis
  else
    match buildGeminiPrompt company_name website_content with
    | none => emptyAnalysis
    | some prompt =>
      match callGemini prompt with
      | none => emptyAnalysis
      | some content => analyze_with_gemini_parse jp (pyStrip content)

/-- The `CompanyData` dataclass (lines 18-26); every field but `name` defaults
to the empty string. -/
structure CompanyData where
  name : Str
  website : Str := []
  industry : Str := []
  company_size : Str := []
  hq_location : Str := []
  summary : Str := []
  automation_pitch : Str := []
deriving DecidableEq, Repr

/-- An analyzer result viewed as the Python dict the analyzer returned; every
return site of both analyzers carries exactly these three keys. -/
def analysisToDict (a : Analysis) : List (Str × Str) :=
  [(chars "summary", a.summary), (chars "industry", a.industry),
   (chars "automation_pitch", a.automation_pitch)]

/-- Python `d.get(k)` on a string dict (`None` when the key is absent). -/
def dictGet (d : List (Str × Str)) (k : Str) : Option Str :=
  (d.find? fun p => p.1 == k).map (·.2)

/-- Python `d.get(k, default)`: the default is used only when the key is
absent, not when its value is empty. -/
def dictGetD (d : List (Str × Str)) (k : Str) (default : Str) : Str :=
  (dictGet d k).getD default

/-- Python truthiness of `analysis` / `analysis.get("summary")` in
`if not analysis or not analysis.get("summary"):` — an empty dict, a missing
key (`None`) and an empty string are all falsy. -/
def analysisFailed (d : List (Str × Str)) : Bool :=
  d.isEmpty ||
    (match dictGet d (chars "summary") with
     | none => true
     | some s => s.isEmpty)

/-- One call to an analyzer, as observed at the orchestrator boundary. -/
structure AnalyzerCall where
  company_name : Str
  website_content : Str
deriving DecidableEq, Repr

/-- The collaborators of `enrich_company`: website discovery
(`search_company_website`, empty string = not found), content scraping
(`scrape_website_content`), and the two analyzers. -/
structure EnrichOracles where
  discover : Str → Str
  scrape : Str → Str
  groq : Str → Str → Analysis
  gemini : Str → Str → Analysis

/-- The outcome of `enrich_company`, instrumented with the analyzer calls
performed. -/
structure EnrichResult where
  record : CompanyData
  groqCalls : List AnalyzerCall
  geminiCalls : List AnalyzerCall
deriving Repr

/-- Embeds `enrich_company` (lines 380-442).  With no website discovered the
analyzers receive `f"Company name: {company_name}"` and the record fields are
read with `analysis.get(key, <textual default>)`; with a website the scraped
content (or `f"Company website: {website}"` when scraping yielded nothing) is
analyzed and the fields are read with `analysis.get(key, "")`.  In both
branches Gemini runs exactly when `not analysis or not analysis.get("summary")`
after the Groq call.  The trailing `time.sleep(REQUEST_DELAY)` and the
logging are effect-free for the record and are not modelled. -/
def enrich_company (o : EnrichOracles) (company_name : Str) : EnrichResult :=
  let website := o.discover company_name
  if website.isEmpty then
    let content := chars "Company name: " ++ company_name
    let analysis1 := analysisToDict (o.groq company_name content)
    let analysis :=
      if analysisFailed analysis1 then analysisToDict (o.gemini company_name content)
      else analysis1
    { record :=
        { name := company_name
          website := []
          summary := dictGetD analysis (chars "summary")
            (chars "Company information for " ++ company_name ++ chars " not available")
          industry := dictGetD analysis (chars "industry") (chars "Unknown")
          automation_pitch := dictGetD analysis (chars "automation_pitch")
            (chars "Contact QF Innovate for custom AI automation solutions") }
      groqCalls := [⟨company_name, content⟩]
      geminiCalls := if analysisFailed analysis1 then [⟨company_name, content⟩] else [] }
  else
    let scraped := o.scrape website
    let website_content :=
      if scraped.isEmpty then chars "Company website: " ++ website else scraped
    let analysis1 := analysisToDict (o.groq company_name website_content)
    let analysis :=
      if analysisFailed analysis1 then analysisToDict (o.gemini company_name website_content)
      else analysis1
    { record :=
        { name := company_name
          website := website
          summary := dictGetD analysis (chars "summary") []
          industry := dictGetD analysis (chars "industry") []
          automation_pitch := dictGetD analysis (chars "automation_pitch") [] }
      groqCalls := [⟨company_name, website_content⟩]
      geminiCalls :=
        if analysisFailed analysis1 then [⟨company_name, website_content⟩] else [] }

/-- One output row of the enriched CSV (fixed five-column shape,
lines 462-468). -/
structure OutputRow where
  company_name : Str
  website : Str
  industry : Str
  summary_from_llm : Str
  automation_pitch_from_llm : Str
deriving DecidableEq, Repr

/-- The input table produced by `pd.read_csv`: named columns and rows of
cells aligned with them; a missing value (empty CSV cell) is `none` (NaN). -/
structure DataFrame where
  columns : List Str
  rows : List (List (Option Str))

/-- Embeds `row['company_name']` for a row of `df`: the cell under the given column. -/
def cellOf (columns : List Str) (row : List (Option Str)) (k : Str) : Option Str :=
  match columns.findIdx? (fun c => c == k) with
  | none => none
  | some i => (row.get? i).getD none

/-- Python `str(value)` on a cell: a NaN cell prints as `"nan"`. -/
def pyStrOfCell : Option Str → Str
  | none => chars "nan"
  | some s => s

/-- The per-company worker seen by `process_csv`: `enrich_company` may raise
(modelled by `Except Str`), in which case the `except` branch at lines 469-477
builds an error row. -/
abbrev EnrichFun := Str → Except Str CompanyData

/-- Embeds `process_csv` (lines 444-483), instrumented with the list of company names
actually handed to `enrich_company`.  A table without a `company_name` column
raises `ValueError` before any company is processed; otherwise every row is
processed in order: the name cell is stringified and stripped (with no
emptiness check), a successful enrichment contributes its five fields, and a
raised error contributes a row whose summary is
`f'Processing error: {str(e)}'` with website/industry/pitch empty.
Writing the output file is not modelled. -/
def process_csv (enrichFn : EnrichFun) (df : DataFrame) :
    Except Str (List OutputRow) × List Str :=
  if df.columns.contains (chars "company_name") then
    (Except.ok (df.rows.map fun row =>
        let company_name := pyStrip (pyStrOfCell (cellOf df.columns row (chars "company_name")))
        match enrichFn company_name with
        | Except.ok cd =>
          ⟨cd.name, cd.website, cd.industry, cd.summary, cd.automation_pitch⟩
        | Except.error e =>
          ⟨company_name, [], [], chars "Processing error: " ++ e, []⟩),
     df.rows.map fun row =>
       pyStrip (pyStrOfCell (cellOf df.columns row (chars "company_name"))))
  else
    (Except.error (chars "CSV must contain \x27company_name\x27 column"), [])

/-- Oracles under which discovery finds nothing and both analyzers return the
all-empty result (e.g. both API calls fail). -/
def failingOracles : EnrichOracles :=
  { discover := fun _ => []
    scrape := fun _ => []
    groq := fun _ _ => emptyAnalysis
    gemini := fun _ _ => emptyAnalysis }

/-- A fetch oracle whose only answering candidate reports that the request
was redirected to a different final URL. -/
def redirectFetch : Fetch := fun u =>
  if u == chars "https://www.acme.com" then
    some ⟨200, 1500, chars "Welcome to Acme widgets",
          chars "https://acme-redirected.example/landing"⟩
  else none

/-- A 501-character string. -/
def longValue : Str := List.replicate 501 'a'

/-- A well-formed JSON response whose `summary` value has 501 characters. -/
def longJsonText : Str := chars "\x7b\"summary\":\"" ++ longValue ++ chars "\"\x7d"

/-- Embeds `json.loads` on `longJsonText` (its genuine parse: a one-key object). -/
def longJsonOracle : JsonParser := fun s =>
  if s == longJsonText then some [(chars "summary", longValue)] else none

/-- The company name `process_csv` derives from a row:
`str(row['company_name']).strip()`. -/
def rowName (df : DataFrame) (row : List (Option Str)) : Str :=
  pyStrip (pyStrOfCell (cellOf df.columns row (chars "company_name")))

/-- No two adjacent characters are both whitespace. -/
def noTwoSpaces (a b : Char) : Prop := isPySpace a = false ∨ isPySpace b = false

/-- The probing loop returns the first candidate of the list that probes
successfully, and the fetch log is the rejected prefix followed by the
accepted candidate (the whole list when nothing is accepted). -/
theorem probeList_eq (fetch : Fetch) (l : List Str) :
    probeList fetch l =
      (l.find? (goodFetch fetch),
       match l.find? (goodFetch fetch) with
       | some u => l.takeWhile (fun v => !goodFetch fetch v) ++ [u]
       | none => l) := by
  induction l with
  | nil => rfl
  | cons u us ih =>
    by_cases h : goodFetch fetch u
    · simp [probeList, h, List.find?_cons, List.takeWhile_cons]
    · simp only [Bool.not_eq_true] at h
      cases hfind : List.find? (goodFetch fetch) us with
      | none => simp [probeList, h, List.find?_cons, List.takeWhile_cons, ih, hfind]
      | some w => simp [probeList, h, List.find?_cons, List.takeWhile_cons, ih, hfind]

/-- Claim C5: pattern probing accepts exactly the first candidate URL, in the
fixed variant and domain-pattern order, whose fetch returns status 200 with
more than 1000 body bytes and no parked-domain phrase in the lowercased body;
every earlier candidate was fetched and rejected, no later candidate is
fetched, and the accepted URL is returned.  A response whose lowercased body
contains "parked domain" is never acceptable, regardless of its size. -/
theorem claim_C5_first_acceptable_candidate :
    (∀ (fetch : Fetch) (name : Str),
      try_common_domains fetch name =
        (nameVariants name).map fun vs =>
          (let cands := allCandidates vs
           ((cands.find? (goodFetch fetch)),
            match cands.find? (goodFetch fetch) with
            | some u => cands.takeWhile (fun v => !goodFetch fetch v) ++ [u]
            | none => cands)))
    ∧ ∀ r : FetchResult, isSubstr (chars "parked domain") (pyLower r.text) = true →
        acceptable r = false := by
  constructor
  · intro fetch name
    unfold try_common_domains
    cases nameVariants name with
    | none => rfl
    | some vs => simp [probeList_eq]
  · intro r h
    simp [acceptable, parkedIndicators, h]

/-- Claim C5 witness: a concrete 200-status, 5000-byte response whose body
mentions a parked domain is rejected. -/
theorem claim_C5_witness :
    acceptable ⟨200, 5000, chars "This Parked Domain is for sale", chars ""⟩ = false :=
  claim_C5_first_acceptable_candidate.2 _ (by decide)

/-- Embeds `probeList` only consults the fetch oracle through `goodFetch`. -/
theorem probeList_congr (f g : Fetch) (h : ∀ u, goodFetch f u = goodFetch g u) :
    ∀ l, probeList f l = probeList g l := by
  intro l
  induction l with
  | nil => rfl
  | cons u us ih => simp [probeList, h u, ih]

/-- Claim C10: the URL recorded by pattern probing is the constructed
candidate string itself, never the final URL the fetch was redirected to:
the result of `_try_common_domains` is invariant under arbitrary rewrites of
the reported final URL, and on a concrete oracle whose acceptable response
reports final URL `https://acme-redirected.example/landing` the function
still returns the constructed candidate `https://www.acme.com`. -/
theorem claim_C10_candidate_not_final_url :
    (∀ (fetch : Fetch) (g : Str → FetchResult → Str) (name : Str),
      try_common_domains
          (fun u => (fetch u).map fun r => { r with finalUrl := g u r }) name =
        try_common_domains fetch name)
    ∧ try_common_domains redirectFetch (chars "acme") =
        some (some (chars "https://www.acme.com"), [chars "https://www.acme.com"]) := by
  constructor
  · intro fetch g name
    unfold try_common_domains
    cases nameVariants name with
    | none => rfl
    | some vs =>
      have h : ∀ u,
          goodFetch (fun u => (fetch u).map fun r => { r with finalUrl := g u r }) u =
            goodFetch fetch u := by
        intro u
        cases hf : fetch u with
        | none => simp [goodFetch, hf]
        | some r => simp [goodFetch, hf, acceptable]
      exact congrArg some (probeList_congr _ _ h _)
  · decide

/-- Claim C1 counterexample: on the response text `"Summary: widgets"`, which
contains no brace-delimited block, the primary (Groq) parsing path returns
the all-empty result directly, although the line-oriented heuristic parser
applied to that same (cleaned) text would extract a non-empty summary — so
the primary path does not fall back to the heuristic parser in the no-block
case. -/
theorem claim_C1_counterexample :
    analyze_with_groq_parse (fun _ => none) (chars "Summary: widgets") = emptyAnalysis
    ∧ parse_text_response (groqClean (chars "Summary: widgets")) =
        ⟨chars "widgets", [], []⟩
    ∧ (parse_text_response (groqClean (chars "Summary: widgets"))).summary.length = 7 :=
  ⟨by decide, by decide, by decide⟩

/-- Claim C1, amended: the secondary (Gemini) path falls back to the
heuristic line parser both when no brace-delimited block exists and when the
located block fails JSON parsing; the primary (Groq) path falls back only
when a located block fails JSON parsing — when the cleaned text contains no
brace-delimited block it returns the all-empty result directly. -/
theorem claim_C1_fallback_amended (jp : JsonParser) (content : Str) :
    (braceBlock (groqClean content) = none →
      analyze_with_groq_parse jp content = emptyAnalysis)
    ∧ (∀ b, braceBlock (groqClean content) = some b → jp b = none →
        analyze_with_groq_parse jp content = parse_text_response (groqClean content))
    ∧ (braceBlock content = none →
        analyze_with_gemini_parse jp content = parse_text_response content)
    ∧ (∀ b, braceBlock content = some b → jp b = none →
        analyze_with_gemini_parse jp content = parse_text_response content) := by
  refine ⟨fun h => ?_, fun b hb hj => ?_, fun h => ?_, fun b hb hj => ?_⟩
  · simp [analyze_with_groq_parse, h]
  · simp [analyze_with_groq_parse, hb, hj]
  · simp [analyze_with_gemini_parse, h]
  · simp [analyze_with_gemini_parse, hb, hj]

/-- Claim C1 witness: the amended fallback behavior at concrete inputs. -/
theorem claim_C1_witness :
    analyze_with_groq_parse (fun _ => none) (chars "no json here") = emptyAnalysis
    ∧ analyze_with_gemini_parse (fun _ => none) (chars "\x7bbad json\x7d") =
        parse_text_response (chars "\x7bbad json\x7d") :=
  ⟨(claim_C1_fallback_amended (fun _ => none) (chars "no json here")).1 (by decide),
   (claim_C1_fallback_amended (fun _ => none) (chars "\x7bbad json\x7d")).2.2.2
     (chars "\x7bbad json\x7d") (by decide) rfl⟩

set_option maxRecDepth 40000 in
/-- Claim C2 counterexample: the structured-JSON parse path of the primary
analyzer applies no truncation — a parsed `summary` value of 501 characters
is returned with all 501 characters, exceeding the claimed 500-character
bound. -/
theorem claim_C2_counterexample :
    (analyze_with_groq_parse longJsonOracle longJsonText).summary.length = 501 := by
  decide

/-- Claim C2, amended: the 500-character truncation is applied only by the
line-oriented heuristic parser, whose three output fields always have length
at most 500; the structured-JSON parse path of either analyzer returns the
parsed values merely stripped of surrounding whitespace, with no truncation. -/
theorem claim_C2_truncation_amended (jp : JsonParser) (content : Str) :
    ((parse_text_response content).summary.length ≤ 500
      ∧ (parse_text_response content).industry.length ≤ 500
      ∧ (parse_text_response content).automation_pitch.length ≤ 500)
    ∧ (∀ b obj, braceBlock (groqClean content) = some b → jp b = some obj →
        analyze_with_groq_parse jp content = structuredResult obj)
    ∧ (∀ b obj, braceBlock content = some b → jp b = some obj →
        analyze_with_gemini_parse jp content = structuredResult obj) := by
  refine ⟨⟨?_, ?_, ?_⟩, fun b obj hb hj => ?_, fun b obj hb hj => ?_⟩
  · exact List.length_take_le 500 _
  · exact List.length_take_le 500 _
  · exact List.length_take_le 500 _
  · simp [analyze_with_groq_parse, hb, hj]
  · simp [analyze_with_gemini_parse, hb, hj]

/-- Claim C2 witness: the amended statement at concrete inputs. -/
theorem claim_C2_witness :
    (parse_text_response (chars "hello")).summary.length ≤ 500
    ∧ analyze_with_gemini_parse (fun _ => some [(chars "summary", chars "S")])
        (chars "\x7bj\x7d") = structuredResult [(chars "summary", chars "S")] :=
  ⟨(claim_C2_truncation_amended (fun _ => none) (chars "hello")).1.1,
   (claim_C2_truncation_amended (fun _ => some [(chars "summary", chars "S")])
       (chars "\x7bj\x7d")).2.2 (chars "\x7bj\x7d") [(chars "summary", chars "S")] (by decide) rfl⟩

/-- Claim C3: when discovery finds no website and both analyzers return the
all-empty result, the record carries empty strings in `summary`, `industry`
and `automation_pitch` — not the textual defaults.  The defaults written at
lines 399-401 are the second argument of `dict.get`, which is used only when
the key is absent, and both analyzers always return all three keys, so the
defaults are unreachable. -/
theorem claim_C3_defaults_unreachable :
    (enrich_company failingOracles (chars "Acme")).record.summary = []
    ∧ (enrich_company failingOracles (chars "Acme")).record.industry = []
    ∧ (enrich_company failingOracles (chars "Acme")).record.automation_pitch = []
    ∧ (chars "Unknown").length = 7 :=
  ⟨by decide, by decide, by decide, by decide⟩

/-- Claim C4 counterexample: a batch whose single row holds a
whitespace-only company name is not skipped by `process_csv` — it produces
exactly one output record, and that record's name is the empty string. -/
theorem claim_C4_counterexample :
    process_csv (fun n => Except.ok (enrich_company failingOracles n).record)
        ⟨[chars "company_name"], [[some (chars "   ")]]⟩ =
      (Except.ok [⟨[], [], [], [], []⟩], [[]]) := rfl

/-- Claim C4, amended: `process_csv` skips no rows at all — for every input
table carrying the `company_name` column, every row (whatever its name cell
holds, including empty and whitespace-only values) produces exactly one
output record, whose recorded name is the stringified, stripped cell and may
therefore be empty.  Only the Streamlit upload path filters empty names. -/
theorem claim_C4_no_skipping_amended (f : EnrichFun) (df : DataFrame)
    (h : df.columns.contains (chars "company_name") = true) :
    ∃ res, (process_csv f df).1 = Except.ok res ∧ res.length = df.rows.length := by
  unfold process_csv
  rw [if_pos h]
  exact ⟨_, rfl, List.length_map _ _⟩

/-- Claim C4 witness: the amended statement at a concrete one-row table. -/
theorem claim_C4_witness :
    ∃ res, (process_csv (fun n => Except.ok { name := n })
        ⟨[chars "company_name"], [[none]]⟩).1 = Except.ok res ∧ res.length = 1 :=
  claim_C4_no_skipping_amended _ _ (by decide)

/-- Claim C6: `process_csv` produces exactly one output record per input
row, in input order; a per-company error is caught and becomes a record with
`Processing error: …` in the summary column and empty website, industry and
pitch, and the batch continues; a table without the `company_name` column
raises before any company is processed (the enrichment call log is empty). -/
theorem claim_C6_batch_shape (f : EnrichFun) (df : DataFrame) :
    (df.columns.contains (chars "company_name") = false →
      process_csv f df = (Except.error (chars "CSV must contain \x27company_name\x27 column"), []))
    ∧ (df.columns.contains (chars "company_name") = true →
      ∃ res, (process_csv f df).1 = Except.ok res ∧ res.length = df.rows.length ∧
        ∀ i (hi : i < df.rows.length) (hr : i < res.length),
          (∀ e, f (rowName df (df.rows.get ⟨i, hi⟩)) = Except.error e →
            res.get ⟨i, hr⟩ = ⟨rowName df (df.rows.get ⟨i, hi⟩), [], [],
              chars "Processing error: " ++ e, []⟩)
          ∧ (∀ cd, f (rowName df (df.rows.get ⟨i, hi⟩)) = Except.ok cd →
            res.get ⟨i, hr⟩ =
              ⟨cd.name, cd.website, cd.industry, cd.summary, cd.automation_pitch⟩)) := by
  constructor
  · intro h
    unfold process_csv
    rw [h]
    simp
  · intro h
    unfold process_csv
    rw [if_pos h]
    refine ⟨_, rfl, List.length_map _ _, ?_⟩
    intro i hi hr
    constructor
    · intro e he
      simp only [List.get_eq_getElem, rowName] at he ⊢
      simp [List.getElem_map, he]
    · intro cd hcd
      simp only [List.get_eq_getElem, rowName] at hcd ⊢
      simp [List.getElem_map, hcd]

/-- Claim C6 witness: the missing-column abort and the error-conversion at
concrete inputs. -/
theorem claim_C6_witness :
    process_csv (fun n => Except.ok { name := n }) ⟨[chars "other"], [[none]]⟩ =
      (Except.error (chars "CSV must contain \x27company_name\x27 column"), [])
    ∧ ∃ res, (process_csv (fun _ => Except.error (chars "boom"))
        ⟨[chars "company_name"], [[some (chars "Acme")]]⟩).1 = Except.ok res ∧
        res.length = 1 :=
  ⟨(claim_C6_batch_shape _ _).1 (by decide),
   ((claim_C6_batch_shape (fun _ => Except.error (chars "boom"))
       ⟨[chars "company_name"], [[some (chars "Acme")]]⟩).2 (by decide)).elim
     fun res hres => ⟨res, hres.1, hres.2.1⟩⟩

/-- The truthiness test `not analysis or not analysis.get("summary")` on an
analyzer result is exactly emptiness of its summary field, because the
returned dict always carries all three keys. -/
theorem analysisFailed_toDict (a : Analysis) :
    analysisFailed (analysisToDict a) = a.summary.isEmpty := rfl

set_option maxRecDepth 40000 in
/-- Claim C7 (code defect): in `enrich_company` the primary analyzer is
called exactly once with the branch's content text, the secondary analyzer is
called exactly when the primary result's summary is empty — then exactly
once, with the same company name and the same content — and the primary
provider's prompt embeds the content truncated to its first 3000 characters.
The secondary provider's claimed 2000-character truncation, however, never
reaches any request: formatting `GEMINI_ANALYSIS_PROMPT` fails on the
template's unescaped literal JSON braces (Python raises `KeyError`, swallowed
by the `except` at line 333), so `analyze_with_gemini` returns the all-empty
result for every API key, oracle and input without ever building a prompt or
contacting Provider 2. -/
theorem claim_C7_secondary_prompt_fails :
    (∀ n c, buildGroqPrompt n c = buildGroqPrompt n (c.take 3000))
    ∧ buildGroqPrompt (chars "Acme") (chars "widgets") =
        some (groqPromptPre ++ chars "Acme" ++ groqPromptMid ++ chars "widgets" ++
          groqPromptPost)
    ∧ (∀ n c, buildGeminiPrompt n c = none)
    ∧ (∀ key jp callGemini n c, analyze_with_gemini key jp callGemini n c = emptyAnalysis)
    ∧ (∀ (o : EnrichOracles) (name : Str), ∃ content,
        (enrich_company o name).groqCalls = [⟨name, content⟩]
        ∧ (enrich_company o name).geminiCalls =
            (if (o.groq name content).summary.isEmpty then [⟨name, content⟩] else [])) := by
  have hgem : ∀ n c, buildGeminiPrompt n c = none := fun n c => rfl
  refine ⟨fun n c => by simp [buildGroqPrompt, List.take_take], by decide, hgem, ?_, ?_⟩
  · intro key jp callGemini n c
    unfold analyze_with_gemini
    rw [hgem]
    simp
  · intro o name
    by_cases h : (o.discover name).isEmpty
    · refine ⟨chars "Company name: " ++ name, ?_, ?_⟩
      · simp [enrich_company, h]
      · simp [enrich_company, h, analysisFailed_toDict]
    · refine ⟨if (o.scrape (o.discover name)).isEmpty
          then chars "Company website: " ++ o.discover name
          else o.scrape (o.discover name), ?_, ?_⟩
      · simp [enrich_company, h]
      · simp [enrich_company, h, analysisFailed_toDict]

/-- A keyword match forces the (stripped) line to be non-empty, since no
keyword is the empty string. -/
theorem hasAnyKeyword_isEmpty_false {kws : List Str} {l : Str}
    (hne : kws.all (fun w => !w.isEmpty) = true) (h : hasAnyKeyword kws l = true) :
    l.isEmpty = false := by
  cases l with
  | nil =>
    exfalso
    simp only [hasAnyKeyword, pyLower, List.map_nil, List.any_eq_true] at h
    obtain ⟨w, hw, hsub⟩ := h
    simp only [List.all_eq_true] at hne
    have := hne w hw
    cases w with
    | nil => simp at this
    | cons a as => simp [isSubstr] at hsub
  | cons c rest => rfl

/-- Claim C8: the heuristic line parser maps the two-line input
`"Summary: widgets\nIndustry: Tech"` to exactly
`{summary: "widgets", industry: "Tech", automation_pitch: ""}`; in general a
line whose keyword class matches (under the summary-then-industry-then-
automation precedence of the `elif` chain) and which contains a colon sets
that field to the stripped text after the first colon and activates the
field, and a keyword-free non-empty line longer than 10 characters is
space-appended to the active field. -/
theorem claim_C8_heuristic_rules :
    parse_text_response (chars "Summary: widgets\nIndustry: Tech") =
        ⟨chars "widgets", chars "Tech", []⟩
    ∧ (∀ st ln, hasAnyKeyword summaryKeywords (pyStrip ln) = true →
        (pyStrip ln).contains ':' = true →
        parse_text_line st ln =
          (setField st.1 .summary (pyStrip (afterFirst ':' (pyStrip ln))),
           some .summary))
    ∧ (∀ st ln, hasAnyKeyword summaryKeywords (pyStrip ln) = false →
        hasAnyKeyword industryKeywords (pyStrip ln) = true →
        (pyStrip ln).contains ':' = true →
        parse_text_line st ln =
          (setField st.1 .industry (pyStrip (afterFirst ':' (pyStrip ln))),
           some .industry))
    ∧ (∀ st ln, hasAnyKeyword summaryKeywords (pyStrip ln) = false →
        hasAnyKeyword industryKeywords (pyStrip ln) = false →
        hasAnyKeyword automationKeywords (pyStrip ln) = true →
        (pyStrip ln).contains ':' = true →
        parse_text_line st ln =
          (setField st.1 .automation_pitch (pyStrip (afterFirst ':' (pyStrip ln))),
           some .automation_pitch))
    ∧ (∀ a k ln, (pyStrip ln).isEmpty = false →
        hasAnyKeyword summaryKeywords (pyStrip ln) = false →
        hasAnyKeyword industryKeywords (pyStrip ln) = false →
        hasAnyKeyword automationKeywords (pyStrip ln) = false →
        10 < (pyStrip ln).length →
        parse_text_line (a, some k) ln =
          (setField a k (appendPiece (getField a k) (pyStrip ln)), some k)) := by
  refine ⟨by decide, ?_, ?_, ?_, ?_⟩
  · intro st ln hkw hcolon
    have hne : (pyStrip ln).isEmpty = false := hasAnyKeyword_isEmpty_false (by decide) hkw
    have hmem : ':' ∈ pyStrip ln := by simpa using hcolon
    simp [parse_text_line, hne, hkw, hcolon, hmem]
  · intro st ln hs hkw hcolon
    have hne : (pyStrip ln).isEmpty = false := hasAnyKeyword_isEmpty_false (by decide) hkw
    have hmem : ':' ∈ pyStrip ln := by simpa using hcolon
    simp [parse_text_line, hne, hs, hkw, hcolon, hmem]
  · intro st ln hs hi hkw hcolon
    have hne : (pyStrip ln).isEmpty = false := hasAnyKeyword_isEmpty_false (by decide) hkw
    have hmem : ':' ∈ pyStrip ln := by simpa using hcolon
    simp [parse_text_line, hne, hs, hi, hkw, hcolon, hmem]
  · intro a k ln hne hs hi ha hlen
    simp [parse_text_line, hne, hs, hi, ha, hlen]

/-- Claim C8 witness: the keyword and continuation rules at concrete lines. -/
theorem claim_C8_witness :
    parse_text_line (emptyAnalysis, none) (chars "Summary: w") =
      (setField emptyAnalysis .summary (pyStrip (afterFirst ':' (pyStrip (chars "Summary: w")))),
       some .summary)
    ∧ parse_text_line (⟨chars "Sum", [], []⟩, some .summary) (chars "more than ten chars!") =
      (setField ⟨chars "Sum", [], []⟩ .summary
        (appendPiece (getField ⟨chars "Sum", [], []⟩ .summary)
          (pyStrip (chars "more than ten chars!"))),
       some .summary) :=
  ⟨claim_C8_heuristic_rules.2.1 (emptyAnalysis, none) (chars "Summary: w")
     (by decide) (by decide),
   claim_C8_heuristic_rules.2.2.2.2 ⟨chars "Sum", [], []⟩ .summary
     (chars "more than ten chars!") (by decide) (by decide) (by decide) (by decide)
     (by decide)⟩

/-- The head surviving a `dropWhile` fails the dropped predicate. -/
theorem head?_dropWhile_false (p : Char → Bool) (l : Str) {c : Char}
    (h : (l.dropWhile p).head? = some c) : p c = false := by
  rw [← List.find?_not_eq_head?_dropWhile] at h
  have := List.find?_some h
  simpa using this

/-- A stripped string never ends in whitespace. -/
theorem pyStrip_getLast (s : Str) {c : Char} (h : (pyStrip s).getLast? = some c) :
    isPySpace c = false := by
  unfold pyStrip at h
  rw [List.getLast?_reverse] at h
  exact head?_dropWhile_false _ _ h

/-- A stripped string never starts with whitespace. -/
theorem pyStrip_head (s : Str) {c : Char} (h : (pyStrip s).head? = some c) :
    isPySpace c = false := by
  unfold pyStrip at h
  rw [List.head?_reverse] at h
  have hne : (s.dropWhile isPySpace).reverse.dropWhile isPySpace ≠ [] := by
    intro hx
    rw [hx] at h
    simp at h
  obtain ⟨t, ht⟩ := List.dropWhile_suffix (l := (s.dropWhile isPySpace).reverse) isPySpace
  have h2 : (s.dropWhile isPySpace).reverse.getLast? = some c := by
    rw [← ht, List.getLast?_append_of_ne_nil _ hne]
    exact h
  rw [List.getLast?_reverse] at h2
  exact head?_dropWhile_false _ _ h2

/-- Stripping yields a contiguous piece of the original string. -/
theorem pyStrip_piece (s : Str) : pyStrip s <:+: s := by
  have h1 : (s.dropWhile isPySpace).reverse.dropWhile isPySpace <:+
      (s.dropWhile isPySpace).reverse := List.dropWhile_suffix isPySpace
  have h2 : pyStrip s <+: s.dropWhile isPySpace := by
    unfold pyStrip
    exact List.reverse_suffix.mp (by simpa using h1)
  have h3 : s.dropWhile isPySpace <:+ s := List.dropWhile_suffix isPySpace
  exact h2.isInfix.trans h3.isInfix

/-- Embeds `collapseWs` keeps the head of a string that starts with non-whitespace. -/
theorem collapseWs_cons_of_not_space {d : Char} (rest : Str) (h : isPySpace d = false) :
    ∃ t, collapseWs (d :: rest) = d :: t := by
  cases rest with
  | nil => exact ⟨[], by simp [collapseWs, h]⟩
  | cons e r => exact ⟨collapseWs (e :: r), by simp [collapseWs, h]⟩

/-- The output of whitespace collapsing has no two adjacent whitespace
characters. -/
theorem collapseWs_chain' : ∀ s : Str, List.Chain' noTwoSpaces (collapseWs s)
  | [] => by simp [collapseWs]
  | [c] => by by_cases h : isPySpace c <;> simp [collapseWs, h]
  | c :: d :: rest => by
    have ih := collapseWs_chain' (d :: rest)
    by_cases hcd : (isPySpace c && isPySpace d) = true
    · simpa [collapseWs, hcd] using ih
    · have hstep : collapseWs (c :: d :: rest) =
          (if isPySpace c then ' ' else c) :: collapseWs (d :: rest) := by
        simp only [collapseWs, hcd]
        simp
      rw [hstep, List.chain'_cons']
      refine ⟨?_, ih⟩
      intro y hy
      by_cases hc : isPySpace c
      · have hd : isPySpace d = false := by
          cases hdd : isPySpace d
          · rfl
          · exact absurd (by simp [hc, hdd]) hcd
        obtain ⟨t, ht⟩ := collapseWs_cons_of_not_space rest hd
        rw [ht] at hy
        simp only [List.head?_cons, Option.mem_def, Option.some.injEq] at hy
        subst hy
        exact Or.inr hd
      · simp only [hc, if_false]
        exact Or.inl (by simpa using hc)

/-- When no selector text passes the length threshold the collected content
is empty. -/
theorem contentAreas_nil_of_short (sels : SelectorOutcomes)
    (h : ∀ sr ∈ sels, ∀ t ∈ sr.getD [], t.length ≤ MIN_CONTENT_LENGTH) :
    contentAreasOf sels = [] := by
  induction sels with
  | nil => rfl
  | cons sr rest ih =>
    have h1 : ((sr.getD []).filter fun t => MIN_CONTENT_LENGTH < t.length) = [] := by
      apply List.filter_eq_nil_iff.mpr
      intro t ht
      have := h sr (List.mem_cons_self _ _) t ht
      simpa using Nat.not_lt.mpr this
    have h2 : contentAreasOf rest = [] :=
      ih fun sr2 hs2 t ht => h sr2 (List.mem_cons_of_mem _ hs2) t ht
    simp only [contentAreasOf] at h2 ⊢
    simp [h1, h2]

/-- Embeds `scrape_website_content` on a fetched page is the cleaned full text
truncated to `MAX_CONTENT_LENGTH` (also when the full text is empty). -/
theorem scrape_some_eq (sels : SelectorOutcomes) :
    scrape_website_content (some sels) = (fullTextOf sels).take MAX_CONTENT_LENGTH := by
  by_cases h : (fullTextOf sels).isEmpty
  · simp [scrape_website_content, h, List.isEmpty_iff.mp h]
  · simp [scrape_website_content, h]

/-- Claim C9: content extraction returns the empty string when the fetch
fails or no content region passes the 50-character threshold; otherwise it
returns the joined, whitespace-collapsed, trimmed text truncated to at most
4000 characters (exactly 4000 when the cleaned text is longer), where the
cleaned text has no leading or trailing whitespace and no two adjacent
whitespace characters; and an error in any single selector (a `none` outcome)
is skipped without affecting the extraction of the other selectors. -/
theorem claim_C9_extraction :
    scrape_website_content none = []
    ∧ (∀ sels, (∀ sr ∈ sels, ∀ t ∈ sr.getD [], t.length ≤ MIN_CONTENT_LENGTH) →
        scrape_website_content (some sels) = [])
    ∧ (∀ page, (scrape_website_content page).length ≤ MAX_CONTENT_LENGTH)
    ∧ (∀ sels, MAX_CONTENT_LENGTH ≤ (fullTextOf sels).length →
        (scrape_website_content (some sels)).length = MAX_CONTENT_LENGTH)
    ∧ (∀ sels, scrape_website_content (some sels) =
        (fullTextOf sels).take MAX_CONTENT_LENGTH)
    ∧ (∀ sels c, (fullTextOf sels).head? = some c → isPySpace c = false)
    ∧ (∀ sels c, (fullTextOf sels).getLast? = some c → isPySpace c = false)
    ∧ (∀ sels, List.Chain' noTwoSpaces (fullTextOf sels))
    ∧ (∀ l1 l2, scrape_website_content (some (l1 ++ none :: l2)) =
        scrape_website_content (some (l1 ++ l2))) := by
  refine ⟨rfl, ?_, ?_, ?_, scrape_some_eq, ?_, ?_, ?_, ?_⟩
  · intro sels h
    have hca := contentAreas_nil_of_short sels h
    simp [scrape_website_content, fullTextOf, hca, List.intercalate, collapseWs, pyStrip]
  · intro page
    cases page with
    | none => simp [scrape_website_content]
    | some sels =>
      rw [scrape_some_eq]
      exact List.length_take_le _ _
  · intro sels h
    rw [scrape_some_eq, List.length_take]
    exact Nat.min_eq_left h
  · intro sels c h
    exact pyStrip_head _ h
  · intro sels c h
    exact pyStrip_getLast _ h
  · intro sels
    exact List.Chain'.infix (collapseWs_chain' _) (pyStrip_piece _)
  · intro l1 l2
    have hca : contentAreasOf (l1 ++ none :: l2) = contentAreasOf (l1 ++ l2) := by
      simp [contentAreasOf]
    simp [scrape_website_content, fullTextOf, hca]

/-- Dropping while a predicate that holds nowhere keeps the string. -/
theorem dropWhile_eq_self_of_false {p : Char → Bool} :
    ∀ {s : Str}, (∀ c ∈ s, p c = false) → s.dropWhile p = s
  | [], _ => rfl
  | c :: rest, h => by
    simp [List.dropWhile_cons, h c (List.mem_cons_self _ _)]

/-- Whitespace collapsing fixes whitespace-free strings. -/
theorem collapseWs_eq_self_of_no_space :
    ∀ s : Str, (∀ c ∈ s, isPySpace c = false) → collapseWs s = s
  | [], _ => rfl
  | [c], h => by simp [collapseWs, h c (by simp)]
  | c :: d :: rest, h => by
    have hc := h c (by simp)
    have hd := h d (by simp)
    have ih := collapseWs_eq_self_of_no_space (d :: rest)
      fun x hx => h x (List.mem_cons_of_mem _ hx)
    simp [collapseWs, hc, hd, ih]

/-- Stripping fixes whitespace-free strings. -/
theorem pyStrip_eq_self_of_no_space (s : Str) (h : ∀ c ∈ s, isPySpace c = false) :
    pyStrip s = s := by
  unfold pyStrip
  rw [dropWhile_eq_self_of_false h,
    dropWhile_eq_self_of_false (fun c hc => h c (by simpa using hc))]
  simp

/-- Claim C9 witness: the threshold and truncation behavior at concrete
selector outcomes. -/
theorem claim_C9_witness :
    scrape_website_content (some [some [chars "short"], none]) = []
    ∧ (scrape_website_content (some [some [List.replicate 4100 'a']])).length =
        MAX_CONTENT_LENGTH
    ∧ isPySpace 'T' = false := by
  have hrep : ∀ c ∈ List.replicate 4100 'a', isPySpace c = false := by
    intro c hc
    rw [List.eq_of_mem_replicate hc]
    decide
  have hca : ∀ t : Str, MIN_CONTENT_LENGTH < t.length → contentAreasOf [some [t]] = [t] := by
    intro t h
    simp [contentAreasOf, h]
  have hsing : ∀ s l : Str, List.intercalate s [l] = l := by
    intro s l
    simp [List.intercalate]
  have hft : fullTextOf [some [List.replicate 4100 'a']] = List.replicate 4100 'a' := by
    rw [fullTextOf, hca _ (by rw [List.length_replicate]; decide), hsing]
    rw [collapseWs_eq_self_of_no_space _ hrep, pyStrip_eq_self_of_no_space _ hrep]
  refine ⟨claim_C9_extraction.2.1 _ (by decide), ?_,
    claim_C9_extraction.2.2.2.2.2.1
      [some [chars "This text is long enough to pass the fifty character threshold ok"]]
      'T' (by decide)⟩
  exact claim_C9_extraction.2.2.2.1 [some [List.replicate 4100 'a']]
    (by rw [hft, List.length_replicate]; decide)
